import Mathlib

/-!
Verification of the pagination/cache coordination core of the movie search page
(`src/pages/Search/index.tsx`).

The component state (`useState`/`useImmer` hooks) is modelled as a record
`SearchState`; each callback (`getData`, `handleRefresh`, `handleLoadMore`,
`handleSearchSubmit`) becomes a state transformer.  An asynchronous fetch
(`ui.getVideoSearchResult`) is modelled by passing its outcome in as a
`FetchResult` argument; the transformer additionally returns the request
`(keyword, page)` it issued (`none` when the guard made the call a no-op and no
fetch was issued).

The page map `dataObj` is a JavaScript object whose keys are the page numbers.
JavaScript `for (const key in obj)` enumerates integer-like keys in ascending
numeric order, so the map is modelled as an association list kept sorted by
page number, and the `list` derivation concatenates it in list order.
-/

namespace MovieSearch

/-- A video record (`TVideo` in the source): full item payload stored in the
result cache, keyed by `href`. -/
structure TVideo where
  href : String
  title : String
  year : String
  cover : String
  rating : String
  type : String
  description : String
  deriving DecidableEq, Repr

/-- The result cache (the `useAppStore` video store): key/value store from
`href` to record, as an association list. -/
abbrev Cache := List (String × TVideo)

/-- Modelled from the spec: the store's `updateVideoData` lives outside `src/`
(`useAppStore` in `@/store`); §4.2 specifies it as `put(key, record)`, an
unconditional upsert. -/
def updateVideoData : Cache → String → TVideo → Cache
  | [], k, v => [(k, v)]
  | (k', v') :: rest, k, v =>
    if k' = k then (k, v) :: rest else (k', v') :: updateVideoData rest k v

/-- Modelled from the spec: the store's `getVideoData` lives outside `src/`;
§4.2 specifies it as `get(key) → Record | absent`, a plain lookup. -/
def getVideoData : Cache → String → Option TVideo
  | [], _ => none
  | (k', v) :: rest, k => if k' = k then some v else getVideoData rest k

/-- `data.list.forEach(movie => updateVideoData(movie.href, movie))`: write
every record of a response into the store, in list order. -/
def writeAll (vids : List TVideo) (c : Cache) : Cache :=
  vids.foldl (fun acc (v : TVideo) => updateVideoData acc v.href v) c

/-- The page map (`DataObject` / `dataObj` in the source): page number to the
ordered key (href) list fetched for that page.  Kept sorted by page number to
mirror JavaScript for-in enumeration order of integer-like object keys. -/
abbrev DataObject := List (Nat × List String)

/-- Write the entry for page `p` (the immer update `_dataObj[page] = …`):
replaces the entry when the page is present, otherwise inserts it at its
numeric position. -/
def setPage : DataObject → Nat → List String → DataObject
  | [], p, ks => [(p, ks)]
  | (q, vs) :: rest, p, ks =>
    if p < q then (p, ks) :: (q, vs) :: rest
    else if p = q then (p, ks) :: rest
    else (q, vs) :: setPage rest p ks

/-- Look up the key list stored for page `p` (`dataObj[p]`). -/
def getPage : DataObject → Nat → Option (List String)
  | [], _ => none
  | (q, vs) :: rest, p => if p = q then some vs else getPage rest p

/-- The `list` memo of the source: flattens `dataObj` by iterating its keys
(`for (const key in dataObj)`, ascending numeric order for integer-like keys)
and concatenating each page's key list.  This is `getVisibleKeys()`. -/
def list (m : DataObject) : List String :=
  (m.map Prod.snd).flatten

/-- Pagination state (`PaginationInfo` in the source). -/
structure PaginationInfo where
  currentPage : Nat
  totalPages : Nat
  hasMore : Bool
  deriving DecidableEq, Repr

/-- The pagination metadata carried by a successful response
(`data.pagination`). -/
structure ResponseMeta where
  currentPage : Nat
  totalPages : Nat
  deriving DecidableEq, Repr

/-- Outcome of the awaited `ui.getVideoSearchResult(searchword, page)` call:
the promise rejected (`err`), it resolved but `data?.list` was absent
(`missing`: `data` null or without a `list` field), or it resolved to a
well-formed response (`ok`).  Note that in JavaScript an empty array is truthy,
so a present-but-empty `list` is `ok [] pg`, not `missing`. -/
inductive FetchResult where
  | err : FetchResult
  | missing : FetchResult
  | ok (vids : List TVideo) (pg : ResponseMeta) : FetchResult
  deriving DecidableEq, Repr

/-- The component state: the five hook states of `MovieSearchPage` plus the
external video store reached through `updateVideoData`/`getVideoData`. -/
structure SearchState where
  isRefreshing : Bool
  isLoadingMore : Bool
  dataObj : DataObject
  searchword : String
  loading : Bool
  pagination : PaginationInfo
  cache : Cache
  deriving DecidableEq, Repr

/-- Initial hook state of the component. -/
def initState : SearchState :=
  { isRefreshing := false
    isLoadingMore := false
    dataObj := []
    searchword := ""
    loading := false
    pagination := { currentPage := 1, totalPages := 1, hasMore := true }
    cache := [] }

/-- `getData(searchword, page)` run to completion with fetch outcome `fetch`.
Returns the request it issued (`none` on the empty-keyword early return) and
the final state.  Mirrors the source line by line: early return on falsy
keyword; `setIsRefreshing(true)` when `page <= 1`; `setLoading(true)`; on a
truthy `data?.list`, write every record into the store, then update `dataObj`
(full reset to `{1: …}` when `page === 1`, otherwise `_dataObj[page] = …`),
then update `pagination` with `hasMore = currentPage < totalPages`; the `catch`
only logs; the `finally` clears `loading` and `isRefreshing`. -/
def getData (sw : String) (page : Nat) (fetch : FetchResult) (s : SearchState) :
    Option (String × Nat) × SearchState :=
  if sw = "" then (none, s)
  else
    let s1 := if page ≤ 1 then { s with isRefreshing := true } else s
    let s2 := { s1 with loading := true }
    let s3 :=
      match fetch with
      | .err => s2
      | .missing => s2
      | .ok vids pg =>
        { s2 with
          cache := writeAll vids s2.cache
          dataObj :=
            if page = 1 then [(1, vids.map TVideo.href)]
            else setPage s2.dataObj page (vids.map TVideo.href)
          pagination :=
            { currentPage := pg.currentPage
              totalPages := pg.totalPages
              hasMore := decide (pg.currentPage < pg.totalPages) } }
    (some (sw, page), { s3 with loading := false, isRefreshing := false })

/-- `handleRefresh`: `await getData(searchword, 1)`. -/
def handleRefresh (fetch : FetchResult) (s : SearchState) :
    Option (String × Nat) × SearchState :=
  getData s.searchword 1 fetch s

/-- `handleSearchSubmit`: `getData(searchword, 1)`. -/
def handleSearchSubmit (fetch : FetchResult) (s : SearchState) :
    Option (String × Nat) × SearchState :=
  getData s.searchword 1 fetch s

/-- The synchronous prefix of `handleLoadMore`, up to (and including)
`setIsLoadingMore(true)`: returns `false` and the unchanged state when the
guard `isLoadingMore || !pagination.hasMore` fires, otherwise `true` and the
state visible while the fetch is in flight. -/
def loadMoreBegin (s : SearchState) : Bool × SearchState :=
  if s.isLoadingMore || !s.pagination.hasMore then (false, s)
  else (true, { s with isLoadingMore := true })

/-- `handleLoadMore` run to completion: guard; `setIsLoadingMore(true)`;
`await getData(searchword, pagination.currentPage + 1)`;
`setIsLoadingMore(false)`. -/
def handleLoadMore (fetch : FetchResult) (s : SearchState) :
    Option (String × Nat) × SearchState :=
  match loadMoreBegin s with
  | (false, s1) => (none, s1)
  | (true, s1) =>
    let r := getData s1.searchword (s1.pagination.currentPage + 1) fetch s1
    (r.1, { r.2 with isLoadingMore := false })

/-- The user typing in the search box (`onChangeText={setSearchword}`). -/
def setSearchword (w : String) (s : SearchState) : SearchState :=
  { s with searchword := w }

/-- States reachable from the initial component state through the UI entry
points: typing a keyword, submit, pull-to-refresh, and load-more, each with an
arbitrary fetch outcome. -/
inductive Reachable : SearchState → Prop where
  | init : Reachable initState
  | typed (w : String) {s : SearchState} : Reachable s → Reachable (setSearchword w s)
  | submitted (f : FetchResult) {s : SearchState} :
      Reachable s → Reachable (handleSearchSubmit f s).2
  | refreshed (f : FetchResult) {s : SearchState} :
      Reachable s → Reachable (handleRefresh f s).2
  | loadedMore (f : FetchResult) {s : SearchState} :
      Reachable s → Reachable (handleLoadMore f s).2

/-- The spec's description of the Visible Key Sequence (§3): the concatenation
of `PageMap[1], PageMap[2], …, PageMap[n]` in ascending page order, a page
that was never fetched contributing nothing. -/
def specVisible (m : DataObject) : Nat → List String
  | 0 => []
  | n + 1 => specVisible m n ++ (getPage m (n + 1)).getD []

/-- The highest page number present in the page map (0 for an empty map). -/
def maxPage : DataObject → Nat
  | [] => 0
  | (p, _) :: rest => max p (maxPage rest)

/-- The page map is sorted by strictly increasing page numbers, all at least
`lb`. -/
def SortedFrom : Nat → DataObject → Prop
  | _, [] => True
  | lb, (p, _) :: rest => lb ≤ p ∧ SortedFrom (p + 1) rest

/-- Every key in the visible sequence resolves in the result cache (§8.4,
"cache precedes visibility"). -/
def cacheCovers (s : SearchState) : Prop :=
  ∀ k ∈ list s.dataObj, (getVideoData s.cache k).isSome = true

/-! ### Basic lemmas about the cache -/

theorem getVideoData_updateVideoData (c : Cache) (k : String) (v : TVideo) (j : String) :
    getVideoData (updateVideoData c k v) j =
      if k = j then some v else getVideoData c j := by
  induction c with
  | nil => simp [updateVideoData, getVideoData]
  | cons kv rest ih =>
    obtain ⟨k', v'⟩ := kv
    by_cases hk : k' = k
    · subst hk
      by_cases hj : k' = j <;> simp [updateVideoData, getVideoData, hj]
    · by_cases hj : k' = j
      · subst hj
        have hkj : ¬k = k' := fun h => hk h.symm
        simp [updateVideoData, hk, getVideoData, hkj]
      · simp [updateVideoData, hk, getVideoData, hj, ih]

theorem getVideoData_writeAll_isSome (vids : List TVideo) (c : Cache) (k : String)
    (h : (getVideoData c k).isSome = true ∨ k ∈ vids.map TVideo.href) :
    (getVideoData (writeAll vids c) k).isSome = true := by
  induction vids generalizing c with
  | nil =>
    simpa [writeAll] using h.resolve_right (by simp)
  | cons v rest ih =>
    simp only [writeAll, List.foldl_cons] at *
    apply ih
    rcases h with h | h
    · left
      rw [getVideoData_updateVideoData]
      split <;> simp [h]
    · simp only [List.map_cons, List.mem_cons] at h
      rcases h with h' | h'
      · left
        rw [getVideoData_updateVideoData, if_pos h'.symm]
        rfl
      · right
        exact h'

/-! ### Basic lemmas about the page map -/

theorem getPage_setPage (m : DataObject) (p : Nat) (ks : List String) (q : Nat) :
    getPage (setPage m p ks) q = if q = p then some ks else getPage m q := by
  induction m with
  | nil => simp [setPage, getPage]
  | cons e rest ih =>
    obtain ⟨r, vs⟩ := e
    by_cases h1 : p < r
    · simp only [setPage, if_pos h1, getPage]
    · by_cases h2 : p = r
      · subst h2
        by_cases hq : q = p <;> simp [setPage, h1, getPage, hq]
      · have hrp : ¬r = p := fun h => h2 h.symm
        by_cases hr : q = r
        · subst hr
          simp [setPage, h1, h2, getPage, hrp]
        · simp [setPage, h1, h2, getPage, hr, ih]

theorem list_cons (e : Nat × List String) (rest : DataObject) :
    list (e :: rest) = e.2 ++ list rest := by
  simp [list]

theorem mem_list_setPage {m : DataObject} {p : Nat} {ks : List String} {k : String}
    (h : k ∈ list (setPage m p ks)) : k ∈ list m ∨ k ∈ ks := by
  induction m with
  | nil =>
    simp only [setPage, list_cons, List.mem_append] at h
    rcases h with h | h
    · exact Or.inr h
    · simp [list] at h
  | cons e rest ih =>
    obtain ⟨q, vs⟩ := e
    by_cases h1 : p < q
    · simp only [setPage, if_pos h1, list_cons, List.mem_append] at h ⊢
      tauto
    · by_cases h2 : p = q
      · subst h2
        rw [show setPage ((p, vs) :: rest) p ks = (p, ks) :: rest from by
          simp [setPage]] at h
        simp only [list_cons, List.mem_append] at h ⊢
        tauto
      · simp only [setPage, if_neg h1, if_neg h2, list_cons, List.mem_append] at h ⊢
        rcases h with h | h
        · tauto
        · rcases ih h with h | h <;> tauto

/-! ### Sortedness of the page map -/

theorem sortedFrom_mono {lb lb' : Nat} {m : DataObject} (h : lb' ≤ lb) :
    SortedFrom lb m → SortedFrom lb' m := by
  cases m with
  | nil => simp [SortedFrom]
  | cons e rest =>
    obtain ⟨p, vs⟩ := e
    simp only [SortedFrom]
    exact fun hm => ⟨le_trans h hm.1, hm.2⟩

theorem sortedFrom_setPage {lb p : Nat} {m : DataObject} (ks : List String)
    (hm : SortedFrom lb m) (hp : lb ≤ p) : SortedFrom lb (setPage m p ks) := by
  induction m generalizing lb with
  | nil => simpa [setPage, SortedFrom] using hp
  | cons e rest ih =>
    obtain ⟨q, vs⟩ := e
    simp only [SortedFrom] at hm
    obtain ⟨hq, hrest⟩ := hm
    by_cases h1 : p < q
    · simp only [setPage, if_pos h1, SortedFrom]
      exact ⟨hp, h1, hrest⟩
    · by_cases h2 : p = q
      · subst h2
        simp only [setPage, if_neg h1, if_pos rfl, SortedFrom]
        exact ⟨hp, hrest⟩
      · have h3 : q < p := by omega
        simp only [setPage, if_neg h1, if_neg h2, SortedFrom]
        exact ⟨hq, ih hrest h3⟩

theorem getPage_none_of_lt {lb q : Nat} {m : DataObject} (hm : SortedFrom lb m)
    (hq : q < lb) : getPage m q = none := by
  induction m generalizing lb with
  | nil => rfl
  | cons e rest ih =>
    obtain ⟨p, vs⟩ := e
    simp only [SortedFrom] at hm
    have hqp : ¬q = p := by omega
    simp only [getPage, if_neg hqp]
    exact ih hm.2 (by omega)

/-! ### The `list` derivation agrees with the spec's visible sequence -/

theorem specVisible_eq_nil {m : DataObject} {n : Nat}
    (h : ∀ i, 1 ≤ i → i ≤ n → getPage m i = none) : specVisible m n = [] := by
  induction n with
  | zero => rfl
  | succ n ih =>
    simp only [specVisible]
    rw [ih (fun i h1 h2 => h i h1 (by omega)), h (n + 1) (by omega) le_rfl]
    rfl

theorem specVisible_cons {p n : Nat} {ks : List String} {rest : DataObject}
    (hp : 1 ≤ p) (hrest : SortedFrom (p + 1) rest) (hpn : p ≤ n) :
    specVisible ((p, ks) :: rest) n = ks ++ specVisible rest n := by
  induction n with
  | zero => omega
  | succ n ih =>
    by_cases h : p ≤ n
    · have hne : ¬(n + 1 = p) := by omega
      simp only [specVisible, ih h, getPage, if_neg hne, List.append_assoc]
    · have hpn1 : p = n + 1 := by omega
      subst hpn1
      have hnil1 : specVisible ((n + 1, ks) :: rest) n = [] := by
        apply specVisible_eq_nil
        intro i h1 h2
        have hne : ¬i = n + 1 := by omega
        simp only [getPage, if_neg hne]
        exact getPage_none_of_lt hrest (by omega)
      have hnil2 : specVisible rest n = [] := by
        apply specVisible_eq_nil
        intro i h1 h2
        exact getPage_none_of_lt hrest (by omega)
      have hnil3 : getPage rest (n + 1) = none := getPage_none_of_lt hrest (by omega)
      simp [specVisible, hnil1, hnil2, hnil3, getPage]

theorem list_eq_specVisible {m : DataObject} {n : Nat}
    (hm : SortedFrom 1 m) (hn : maxPage m ≤ n) : list m = specVisible m n := by
  induction m with
  | nil =>
    have h0 : specVisible ([] : DataObject) n = [] :=
      specVisible_eq_nil (fun i _ _ => rfl)
    rw [h0]
    rfl
  | cons e rest ih =>
    obtain ⟨p, vs⟩ := e
    simp only [SortedFrom] at hm
    obtain ⟨hp, hrest⟩ := hm
    simp only [maxPage, max_le_iff] at hn
    rw [list_cons, specVisible_cons hp hrest hn.1,
      ih (sortedFrom_mono (by omega) hrest) hn.2]

/-! ### Unfolding lemmas for the operations -/

theorem getData_empty (page : Nat) (f : FetchResult) (s : SearchState) :
    getData "" page f s = (none, s) := rfl

theorem getData_err {sw : String} (hsw : sw ≠ "") (page : Nat) (s : SearchState) :
    getData sw page .err s =
      (some (sw, page), { s with loading := false, isRefreshing := false }) := by
  unfold getData
  rw [if_neg hsw]
  by_cases h : page ≤ 1 <;> simp [h]

theorem getData_missing {sw : String} (hsw : sw ≠ "") (page : Nat) (s : SearchState) :
    getData sw page .missing s =
      (some (sw, page), { s with loading := false, isRefreshing := false }) := by
  unfold getData
  rw [if_neg hsw]
  by_cases h : page ≤ 1 <;> simp [h]

theorem getData_ok {sw : String} (hsw : sw ≠ "") (page : Nat) (vids : List TVideo)
    (pg : ResponseMeta) (s : SearchState) :
    getData sw page (.ok vids pg) s =
      (some (sw, page),
       { s with
         loading := false
         isRefreshing := false
         cache := writeAll vids s.cache
         dataObj :=
           if page = 1 then [(1, vids.map TVideo.href)]
           else setPage s.dataObj page (vids.map TVideo.href)
         pagination :=
           { currentPage := pg.currentPage
             totalPages := pg.totalPages
             hasMore := decide (pg.currentPage < pg.totalPages) } }) := by
  unfold getData
  rw [if_neg hsw]
  by_cases h : page ≤ 1 <;> simp [h]

theorem handleLoadMore_guarded (f : FetchResult) (s : SearchState)
    (h : s.isLoadingMore = true ∨ s.pagination.hasMore = false) :
    handleLoadMore f s = (none, s) := by
  have hg : (s.isLoadingMore || !s.pagination.hasMore) = true := by
    rcases h with h | h <;> simp [h]
  unfold handleLoadMore loadMoreBegin
  rw [if_pos hg]

theorem loadMoreBegin_run (s : SearchState)
    (h1 : s.isLoadingMore = false) (h2 : s.pagination.hasMore = true) :
    loadMoreBegin s = (true, { s with isLoadingMore := true }) := by
  unfold loadMoreBegin
  rw [if_neg (by simp [h1, h2])]

theorem handleLoadMore_run (f : FetchResult) (s : SearchState)
    (h1 : s.isLoadingMore = false) (h2 : s.pagination.hasMore = true) :
    handleLoadMore f s =
      ((getData s.searchword (s.pagination.currentPage + 1) f
          { s with isLoadingMore := true }).1,
       { (getData s.searchword (s.pagination.currentPage + 1) f
          { s with isLoadingMore := true }).2 with isLoadingMore := false }) := by
  unfold handleLoadMore
  rw [loadMoreBegin_run s h1 h2]

/-! ### Invariant: the page map stays sorted with pages at least 1 -/

theorem getData_sorted {sw : String} {page : Nat} {f : FetchResult} {s : SearchState}
    (hs : SortedFrom 1 s.dataObj) (hp : 1 ≤ page) :
    SortedFrom 1 (getData sw page f s).2.dataObj := by
  by_cases hsw : sw = ""
  · subst hsw
    rw [getData_empty]
    exact hs
  · cases f with
    | err => rw [getData_err hsw]; exact hs
    | missing => rw [getData_missing hsw]; exact hs
    | ok vids pg =>
      rw [getData_ok hsw]
      by_cases h1 : page = 1
      · simp [h1, SortedFrom]
      · simp only [if_neg h1]
        exact sortedFrom_setPage _ hs hp

theorem reachable_sorted {s : SearchState} (h : Reachable s) :
    SortedFrom 1 s.dataObj := by
  induction h with
  | init => trivial
  | typed w _ ih => exact ih
  | submitted f _ ih => exact getData_sorted ih le_rfl
  | refreshed f _ ih => exact getData_sorted ih le_rfl
  | loadedMore f _ ih =>
    rename_i s' _
    by_cases hg : s'.isLoadingMore = true ∨ s'.pagination.hasMore = false
    · rw [handleLoadMore_guarded f s' hg]
      exact ih
    · push_neg at hg
      obtain ⟨h1, h2⟩ := hg
      rw [handleLoadMore_run f s' (by simpa using h1) (by simpa using h2)]
      exact getData_sorted ih (by omega)

/-! ### Invariant: every visible key resolves in the cache -/

theorem getData_cacheCovers {sw : String} {page : Nat} {f : FetchResult}
    {s : SearchState} (h : cacheCovers s) : cacheCovers (getData sw page f s).2 := by
  by_cases hsw : sw = ""
  · subst hsw
    rw [getData_empty]
    exact h
  · cases f with
    | err => rw [getData_err hsw]; exact h
    | missing => rw [getData_missing hsw]; exact h
    | ok vids pg =>
      rw [getData_ok hsw]
      intro k hk
      simp only at hk ⊢
      apply getVideoData_writeAll_isSome
      by_cases h1 : page = 1
      · right
        rw [if_pos h1, list_cons] at hk
        simp only [List.mem_append] at hk
        rcases hk with hk | hk
        · simpa using hk
        · simp [list] at hk
      · rw [if_neg h1] at hk
        rcases mem_list_setPage hk with hk | hk
        · exact Or.inl (h k hk)
        · exact Or.inr (by simpa using hk)

/-! ### Concrete fixtures for witnesses and counterexamples -/

/-- A sample record with the given href. -/
def sampleVideo (h : String) : TVideo :=
  { href := h, title := "title", year := "2024", cover := "cover", rating := "9.0"
    type := "movie", description := "desc" }

/-- State after typing `"a"` and submitting a search whose page-1 response is
`[k1, k2]` of 3 pages. -/
def stateA : SearchState :=
  (handleSearchSubmit (.ok [sampleVideo "k1", sampleVideo "k2"] ⟨1, 3⟩)
    (setSearchword "a" initState)).2

/-- `stateA` after a load-more whose page-2 response is `[k3, k4]`. -/
def stateB : SearchState :=
  (handleLoadMore (.ok [sampleVideo "k3", sampleVideo "k4"] ⟨2, 3⟩) stateA).2

/-! ### Utility facts for the claims -/

theorem getData_req (sw : String) (page : Nat) (f : FetchResult) (s : SearchState) :
    (getData sw page f s).1 = if sw = "" then none else some (sw, page) := by
  by_cases h : sw = ""
  · subst h
    rfl
  · unfold getData
    rw [if_neg h, if_neg h]

/-! ### The claims -/

/-- C1: for every (reachable) state of the page map, the `list` derivation
(`getVisibleKeys()`) returns exactly the concatenation of `PageMap[1],
PageMap[2], …` in ascending page-number order up to the highest page fetched,
preserving each page's internal key order and applying no deduplication across
pages (`specVisible` concatenates the pages verbatim). -/
theorem visible_list_is_ascending_page_concat {s : SearchState} (h : Reachable s) :
    list s.dataObj = specVisible s.dataObj (maxPage s.dataObj) :=
  list_eq_specVisible (reachable_sorted h) le_rfl

theorem visible_list_is_ascending_page_concat_witness :
    list stateB.dataObj = specVisible stateB.dataObj (maxPage stateB.dataObj) ∧
      list stateB.dataObj = ["k1", "k2", "k3", "k4"] :=
  ⟨visible_list_is_ascending_page_concat
      (Reachable.loadedMore _ (Reachable.submitted _ (Reachable.typed _ Reachable.init))),
    by decide⟩

/-- C2: from any prior state, a successful `submitSearch` or `refresh` (both
fetch page 1) replaces the entire page map with only the keys of the new
page-1 response, so the visible key sequence equals exactly that page-1 key
list and previously fetched pages greater than 1 are no longer visible. -/
theorem page1_fetch_resets_page_map (s : SearchState) (vids : List TVideo)
    (pg : ResponseMeta) (hsw : s.searchword ≠ "") :
    (handleSearchSubmit (.ok vids pg) s).2.dataObj = [(1, vids.map TVideo.href)] ∧
    list (handleSearchSubmit (.ok vids pg) s).2.dataObj = vids.map TVideo.href ∧
    (handleRefresh (.ok vids pg) s).2.dataObj = [(1, vids.map TVideo.href)] ∧
    list (handleRefresh (.ok vids pg) s).2.dataObj = vids.map TVideo.href := by
  unfold handleSearchSubmit handleRefresh
  rw [getData_ok hsw]
  simp [list_cons, list]

theorem page1_fetch_resets_page_map_witness :
    (handleSearchSubmit (.ok [sampleVideo "k5"] ⟨1, 1⟩)
        (setSearchword "b" stateB)).2.dataObj = [(1, ["k5"])] ∧
      list (handleSearchSubmit (.ok [sampleVideo "k5"] ⟨1, 1⟩)
        (setSearchword "b" stateB)).2.dataObj = ["k5"] := by
  have h := page1_fetch_resets_page_map (setSearchword "b" stateB)
    [sampleVideo "k5"] ⟨1, 1⟩ (by decide)
  exact ⟨h.1, h.2.1⟩

theorem reachable_cacheCovers {s : SearchState} (h : Reachable s) : cacheCovers s := by
  induction h with
  | init => intro k hk; simp [initState, list] at hk
  | typed w _ ih => exact ih
  | submitted f _ ih => exact getData_cacheCovers ih
  | refreshed f _ ih => exact getData_cacheCovers ih
  | loadedMore f _ ih =>
    rename_i s' _
    by_cases hg : s'.isLoadingMore = true ∨ s'.pagination.hasMore = false
    · rw [handleLoadMore_guarded f s' hg]
      exact ih
    · push_neg at hg
      rw [handleLoadMore_run f s' (by simpa using hg.1) (by simpa using hg.2)]
      exact @getData_cacheCovers _ _ _ { s' with isLoadingMore := true } ih

/-- C3: every successful fetch writes all response records into the result
cache before the page map is updated, so in every reachable state and after
any further fetch — through `getData` directly or any of the three UI
operations — every key in the visible sequence resolves via cache `get` to a
non-absent record. -/
theorem fetch_populates_cache_before_visibility {s : SearchState} (h : Reachable s) :
    cacheCovers s ∧
    (∀ sw page f, cacheCovers (getData sw page f s).2) ∧
    (∀ f, cacheCovers (handleSearchSubmit f s).2) ∧
    (∀ f, cacheCovers (handleRefresh f s).2) ∧
    (∀ f, cacheCovers (handleLoadMore f s).2) := by
  have hc := reachable_cacheCovers h
  exact ⟨hc, fun sw page f => getData_cacheCovers hc,
    fun f => getData_cacheCovers hc, fun f => getData_cacheCovers hc,
    fun f => reachable_cacheCovers (Reachable.loadedMore f h)⟩

theorem fetch_populates_cache_before_visibility_witness :
    cacheCovers (getData "a" 3 (.ok [sampleVideo "k6"] ⟨3, 3⟩) stateB).2 :=
  (fetch_populates_cache_before_visibility
      (Reachable.loadedMore _ (Reachable.submitted _
        (Reachable.typed _ Reachable.init)))).2.1 "a" 3
    (.ok [sampleVideo "k6"] ⟨3, 3⟩)

/-- C4: whenever `isLoadingMore` is true or `hasMore` is false, `loadMore()`
is a silent no-op (no fetch, state untouched); from an idle state a call
issues exactly the fetch for `currentPage + 1`, and a second call arriving
while that one is in flight (i.e. on the state right after
`setIsLoadingMore(true)`) is a no-op; and a successful response reporting
`currentPage = totalPages` leaves `hasMore` false, so the next `loadMore()`
issues no fetch. -/
theorem loadMore_guard_noop (f g : FetchResult) (s : SearchState)
    (h : s.isLoadingMore = true ∨ s.pagination.hasMore = false) :
    handleLoadMore f s = (none, s) ∧
    (∀ t : SearchState, t.isLoadingMore = false → t.pagination.hasMore = true →
      t.searchword ≠ "" →
      (handleLoadMore f t).1 = some (t.searchword, t.pagination.currentPage + 1) ∧
      handleLoadMore g (loadMoreBegin t).2 = (none, (loadMoreBegin t).2)) ∧
    (∀ (sw : String) (page : Nat) (vids : List TVideo) (t : SearchState)
      (pg : ResponseMeta), sw ≠ "" → pg.currentPage = pg.totalPages →
      (getData sw page (.ok vids pg) t).2.pagination.hasMore = false) := by
  refine ⟨handleLoadMore_guarded f s h, fun t h1 h2 h3 => ⟨?_, ?_⟩,
    fun sw page vids t pg hsw hpg => ?_⟩
  · rw [handleLoadMore_run f t h1 h2, getData_req]
    simp [h3]
  · rw [loadMoreBegin_run t h1 h2]
    exact handleLoadMore_guarded g _ (Or.inl rfl)
  · rw [getData_ok hsw]
    simp [hpg]

theorem loadMore_guard_noop_witness :
    handleLoadMore FetchResult.err { initState with isLoadingMore := true } =
        (none, { initState with isLoadingMore := true }) ∧
      (handleLoadMore FetchResult.err stateB).1 = some ("a", 3) ∧
      handleLoadMore FetchResult.missing (loadMoreBegin stateB).2 =
        (none, (loadMoreBegin stateB).2) ∧
      (getData "a" 3 (.ok [sampleVideo "k6"] ⟨3, 3⟩) stateB).2.pagination.hasMore
        = false := by
  have h := loadMore_guard_noop FetchResult.err FetchResult.missing
    { initState with isLoadingMore := true } (Or.inl rfl)
  have hidle := h.2.1 stateB (by decide) (by decide) (by decide)
  exact ⟨h.1, hidle.1, hidle.2,
    h.2.2 "a" 3 [sampleVideo "k6"] stateB ⟨3, 3⟩ (by decide) rfl⟩

/-- C5: a fetch that throws leaves the page map, cursor, cache and visible
sequence unchanged and clears the loading flags; after a failed `loadMore()`,
a following `loadMore()` targets the same page number `currentPage + 1` as the
failed attempt. -/
theorem failed_fetch_preserves_state {sw : String} (hsw : sw ≠ "") (page : Nat)
    (s : SearchState) (f : FetchResult) :
    (getData sw page .err s).2 = { s with loading := false, isRefreshing := false } ∧
    (getData sw page .err s).2.dataObj = s.dataObj ∧
    (getData sw page .err s).2.pagination = s.pagination ∧
    (getData sw page .err s).2.cache = s.cache ∧
    list (getData sw page .err s).2.dataObj = list s.dataObj ∧
    (∀ t : SearchState, t.isLoadingMore = false → t.pagination.hasMore = true →
      t.searchword ≠ "" →
      (handleLoadMore FetchResult.err t).1 =
        some (t.searchword, t.pagination.currentPage + 1) ∧
      (handleLoadMore FetchResult.err t).2.pagination = t.pagination ∧
      (handleLoadMore FetchResult.err t).2.dataObj = t.dataObj ∧
      (handleLoadMore FetchResult.err t).2.isLoadingMore = false ∧
      (handleLoadMore FetchResult.err t).2.loading = false ∧
      (handleLoadMore f (handleLoadMore FetchResult.err t).2).1 =
        some (t.searchword, t.pagination.currentPage + 1)) := by
  rw [getData_err hsw]
  refine ⟨rfl, rfl, rfl, rfl, rfl, fun t h1 h2 h3 => ?_⟩
  have hpost : (handleLoadMore FetchResult.err t).2 =
      { t with isLoadingMore := false, loading := false, isRefreshing := false } := by
    rw [handleLoadMore_run FetchResult.err t h1 h2, getData_err h3]
  have hreq : (handleLoadMore FetchResult.err t).1 =
      some (t.searchword, t.pagination.currentPage + 1) := by
    rw [handleLoadMore_run FetchResult.err t h1 h2, getData_req]
    simp [h3]
  refine ⟨hreq, by rw [hpost], by rw [hpost], by rw [hpost], by rw [hpost], ?_⟩
  rw [hpost,
    handleLoadMore_run f
      { t with isLoadingMore := false, loading := false, isRefreshing := false } rfl h2,
    getData_req]
  simp [h3]

theorem failed_fetch_preserves_state_witness :
    (getData "a" 3 FetchResult.err stateB).2 =
        { stateB with loading := false, isRefreshing := false } ∧
      (handleLoadMore FetchResult.err stateB).1 = some ("a", 3) ∧
      (handleLoadMore FetchResult.err stateB).2.dataObj = stateB.dataObj ∧
      (handleLoadMore FetchResult.err
        (handleLoadMore FetchResult.err stateB).2).1 = some ("a", 3) := by
  have h := failed_fetch_preserves_state (by decide : ("a" : String) ≠ "") 3 stateB
    FetchResult.err
  have h6 := h.2.2.2.2.2 stateB (by decide) (by decide) (by decide)
  exact ⟨h.1, h6.1, h6.2.2.1, h6.2.2.2.2.2⟩

/-- C6 counterexample: the code sets `currentPage` from the response's
`pagination.currentPage`, not by local increment: from `stateA`
(`currentPage = 1`) a successful load-more (it fetched page 2) whose response
reports `currentPage = 5` leaves `currentPage = 5`, not `1 + 1`. -/
theorem currentPage_not_incremented_cex :
    stateA.pagination.currentPage = 1 ∧
      (handleLoadMore (.ok [sampleVideo "k9"] ⟨5, 9⟩) stateA).1 = some ("a", 2) ∧
      ¬((handleLoadMore (.ok [sampleVideo "k9"] ⟨5, 9⟩) stateA).2.pagination.currentPage
          = stateA.pagination.currentPage + 1) := by decide

/-- C6 amended: after every successful fetch `currentPage` equals the
response's `pagination.currentPage`; hence, whenever the response echoes the
requested page number, a successful load-more advances `currentPage` by
exactly 1 and a successful new search or refresh resets it to 1. -/
theorem currentPage_tracks_response (s : SearchState) (vids : List TVideo)
    (pg : ResponseMeta) (hsw : s.searchword ≠ "") :
    (∀ page, (getData s.searchword page (.ok vids pg) s).2.pagination.currentPage
        = pg.currentPage) ∧
    (s.isLoadingMore = false → s.pagination.hasMore = true →
      pg.currentPage = s.pagination.currentPage + 1 →
      (handleLoadMore (.ok vids pg) s).2.pagination.currentPage
        = s.pagination.currentPage + 1) ∧
    (pg.currentPage = 1 →
      (handleSearchSubmit (.ok vids pg) s).2.pagination.currentPage = 1 ∧
      (handleRefresh (.ok vids pg) s).2.pagination.currentPage = 1) := by
  refine ⟨fun page => by rw [getData_ok hsw], fun h1 h2 hecho => ?_, fun hpg => ?_⟩
  · rw [handleLoadMore_run _ s h1 h2, getData_ok hsw]
    exact hecho
  · unfold handleSearchSubmit handleRefresh
    rw [getData_ok hsw]
    exact ⟨hpg, hpg⟩

theorem currentPage_tracks_response_witness :
    (handleLoadMore (.ok [sampleVideo "k3"] ⟨2, 3⟩) stateA).2.pagination.currentPage
        = stateA.pagination.currentPage + 1 ∧
      (handleSearchSubmit (.ok [sampleVideo "k5"] ⟨1, 1⟩) stateA).2.pagination.currentPage
        = 1 := by
  have h := currentPage_tracks_response stateA [sampleVideo "k3"] ⟨2, 3⟩ (by decide)
  have h' := currentPage_tracks_response stateA [sampleVideo "k5"] ⟨1, 1⟩ (by decide)
  exact ⟨h.2.1 (by decide) (by decide) (by decide), (h'.2.2 rfl).1⟩

/-- C7: a response lacking a `list` field is a soft no-op: page map, cursor,
cache and visible sequence are unchanged, and the loading flag is still
cleared. -/
theorem missing_list_soft_noop {sw : String} (hsw : sw ≠ "") (page : Nat)
    (s : SearchState) :
    (getData sw page FetchResult.missing s).2 =
        { s with loading := false, isRefreshing := false } ∧
      (getData sw page FetchResult.missing s).2.dataObj = s.dataObj ∧
      (getData sw page FetchResult.missing s).2.pagination = s.pagination ∧
      (getData sw page FetchResult.missing s).2.cache = s.cache ∧
      list (getData sw page FetchResult.missing s).2.dataObj = list s.dataObj ∧
      (getData sw page FetchResult.missing s).2.loading = false := by
  rw [getData_missing hsw]
  exact ⟨rfl, rfl, rfl, rfl, rfl, rfl⟩

theorem missing_list_soft_noop_witness :
    (getData "a" 3 FetchResult.missing stateB).2 =
        { stateB with loading := false, isRefreshing := false } ∧
      (getData "a" 3 FetchResult.missing stateB).2.loading = false := by
  have h := missing_list_soft_noop (by decide : ("a" : String) ≠ "") 3 stateB
  exact ⟨h.1, h.2.2.2.2.2⟩

/-- C8: a successful fetch for a page `p > 1` writes only `PageMap[p]`: the
entry for `p` becomes the response's key list and the key sequence stored for
every other page is unchanged. -/
theorem later_page_fetch_frames_other_pages {sw : String} (hsw : sw ≠ "") {p : Nat}
    (hp : 1 < p) (vids : List TVideo) (pg : ResponseMeta) (s : SearchState) :
    getPage (getData sw p (.ok vids pg) s).2.dataObj p = some (vids.map TVideo.href) ∧
    ∀ q, q ≠ p → getPage (getData sw p (.ok vids pg) s).2.dataObj q
      = getPage s.dataObj q := by
  rw [getData_ok hsw]
  have hp1 : ¬p = 1 := by omega
  refine ⟨?_, fun q hq => ?_⟩
  · simp [hp1, getPage_setPage]
  · simp [hp1, getPage_setPage, hq]

theorem later_page_fetch_frames_other_pages_witness :
    getPage (getData "a" 2 (.ok [sampleVideo "k3", sampleVideo "k4"] ⟨2, 3⟩)
        stateA).2.dataObj 2 = some ["k3", "k4"] ∧
      getPage (getData "a" 2 (.ok [sampleVideo "k3", sampleVideo "k4"] ⟨2, 3⟩)
        stateA).2.dataObj 1 = getPage stateA.dataObj 1 := by
  have h := later_page_fetch_frames_other_pages (by decide : ("a" : String) ≠ "")
    (by omega : 1 < 2) [sampleVideo "k3", sampleVideo "k4"] ⟨2, 3⟩ stateA
  exact ⟨h.1, h.2 1 (by omega)⟩

/-- C9: `handleRefresh` and `handleSearchSubmit` are the same state
transformer — both run `getData(searchword, 1)` with the current keyword — and
with an empty current keyword the call is a no-op issuing no fetch. -/
theorem refresh_equals_submit (f : FetchResult) (s : SearchState) :
    handleRefresh f s = handleSearchSubmit f s ∧
    (s.searchword = "" → handleRefresh f s = (none, s)) := by
  refine ⟨rfl, fun h => ?_⟩
  unfold handleRefresh
  rw [h, getData_empty]

theorem refresh_equals_submit_witness :
    handleRefresh FetchResult.err stateB = handleSearchSubmit FetchResult.err stateB ∧
      handleRefresh FetchResult.err initState = (none, initState) :=
  ⟨(refresh_equals_submit FetchResult.err stateB).1,
    (refresh_equals_submit FetchResult.err initState).2 rfl⟩

/-- C10: a response whose `list` is present but empty is treated as a full
success (an empty array is truthy in JavaScript): the fetched page's entry
becomes the empty key sequence — for page 1 the whole map becomes a single
empty page — and the cursor is updated from the response's pagination
metadata, with `hasMore = currentPage < totalPages`. -/
theorem empty_list_full_success {sw : String} (hsw : sw ≠ "") (page : Nat)
    (pg : ResponseMeta) (s : SearchState) :
    (getData sw page (.ok [] pg) s).2.dataObj =
        (if page = 1 then [(1, [])] else setPage s.dataObj page []) ∧
      getPage (getData sw page (.ok [] pg) s).2.dataObj page = some [] ∧
      (getData sw page (.ok [] pg) s).2.pagination =
        { currentPage := pg.currentPage, totalPages := pg.totalPages,
          hasMore := decide (pg.currentPage < pg.totalPages) } := by
  rw [getData_ok hsw]
  refine ⟨rfl, ?_, rfl⟩
  by_cases h : page = 1 <;> simp [h, getPage, getPage_setPage]

theorem empty_list_full_success_witness :
    (getData "a" 1 (.ok [] ⟨1, 1⟩) stateB).2.dataObj = [(1, [])] ∧
      getPage (getData "a" 1 (.ok [] ⟨1, 1⟩) stateB).2.dataObj 1 = some [] ∧
      (getData "a" 1 (.ok [] ⟨1, 1⟩) stateB).2.pagination =
        { currentPage := 1, totalPages := 1, hasMore := false } := by
  have h := empty_list_full_success (by decide : ("a" : String) ≠ "") 1 ⟨1, 1⟩ stateB
  exact ⟨h.1, h.2.1, h.2.2⟩

end MovieSearch
